import Mathlib

/-!
Shallow embedding of the local pin-store subsystem of
node-red-pebble-timeline: the per-token pin cache, its insert-or-replace
(storePin in the add node), delete-by-id (removePin in the delete node),
time-range listing (the list node filter), the calendar-month retention
sweep (cleanupOldPins) and the file-backed load/save behaviour.

Timestamps are modelled as milliseconds since the Unix epoch (Int), the
value of the JavaScript Date.getTime(). A timestamp-valued field read
from the store is an Option Int: some ms when new Date(x) yields a valid
date, none when the field is missing or unparsable (the JS NaN case).
Every comparison in the source goes through getTime semantics, and every
comparison against NaN is false; the definitions below spell that case
out explicitly.
-/

set_option autoImplicit false

namespace PebbleTimeline

/-- A JS timestamp as observed through new Date(x).getTime(): some ms for
a valid date, none for a missing or unparsable value (NaN). -/
abbrev JsTime := Option Int

/-- A pin as handed to the store by the add node: the store only inspects
id and time (eventTime); the rest of the payload is opaque. -/
structure Pin where
  id : String
  time : JsTime
  deriving Repr, DecidableEq

/-- A pin as persisted in timeline-pins.json: the original pin fields plus
the added field recording insertion time. The source spells it _stored;
Lean does not allow a leading underscore, so the field is named stored. -/
structure StoredPin where
  id : String
  time : JsTime
  stored : JsTime
  deriving Repr, DecidableEq

/-- The in-memory pinsData object: a mapping from timeline token to that
token collection. A token absent from the JS object is modelled as the
empty collection, which the source treats identically (the falsy check
`if (!pinsData[token])` and an empty array produce the same observable
behaviour in every operation). -/
abbrev Store := String → List StoredPin

/-- The empty store (a fresh `pinsData = {}`). -/
def emptyStore : Store := fun _ => []

/-- Pointwise update of one token collection, as the JS assignment
`pinsData[token] = coll`. -/
def update (store : Store) (token : String) (coll : List StoredPin) : Store :=
  fun t => if t = token then coll else store t

/-! ## Calendar arithmetic of the retention cutoff

The sweep computes `oneMonthAgo` by `d.setMonth(d.getMonth() - 1)`.
ECMAScript setMonth keeps the day-of-month and the time of day and
renormalises through MakeDay: the month index may borrow from the year,
and a day-of-month beyond the length of the target month spills forward
day by day (e.g. March 31 minus one month is February 31, normalised to
March 2 or March 3). The two civil-date conversions below are the
standard proleptic-Gregorian epoch-day conversions, which give exactly
the MakeDay arithmetic. -/

/-- Milliseconds per day. -/
def msPerDay : Int := 86400000

/-- Epoch day number of a civil date (year, month 1..12, day); the day is
allowed to exceed the month length, spilling into following months, as in
the ECMAScript MakeDay renormalisation. -/
def daysFromCivil (y m d : Int) : Int :=
  let y1 : Int := if m ≤ 2 then y - 1 else y
  let era : Int := Int.fdiv y1 400
  let yoe : Int := y1 - era * 400
  let mp : Int := Int.emod (m + 9) 12
  let doy : Int := Int.fdiv (153 * mp + 2) 5 + d - 1
  let doe : Int := yoe * 365 + Int.fdiv yoe 4 - Int.fdiv yoe 100 + doy
  era * 146097 + doe - 719468

/-- Civil date (year, month 1..12, day 1..31) of an epoch day number. -/
def civilFromDays (z0 : Int) : Int × Int × Int :=
  let z : Int := z0 + 719468
  let era : Int := Int.fdiv z 146097
  let doe : Int := z - era * 146097
  let yoe : Int :=
    Int.fdiv (doe - Int.fdiv doe 1460 + Int.fdiv doe 36524 - Int.fdiv doe 146096) 365
  let y : Int := yoe + era * 400
  let doy : Int := doe - (365 * yoe + Int.fdiv yoe 4 - Int.fdiv yoe 100)
  let mp : Int := Int.fdiv (5 * doy + 2) 153
  let d : Int := doy - Int.fdiv (153 * mp + 2) 5 + 1
  let m : Int := mp + (if mp < 10 then 3 else -9)
  (if m ≤ 2 then y + 1 else y, m, d)

/-- The retention cutoff: `oneMonthAgo = new Date(now)` followed by
`oneMonthAgo.setMonth(oneMonthAgo.getMonth() - 1)`. Decomposes now into
civil date and time of day, subtracts one from the (zero-based) month
with year borrow, and rebuilds the timestamp through MakeDay, which
renormalises a day-of-month that the shorter target month lacks. -/
def oneMonthAgo (now : Int) : Int :=
  let z : Int := Int.fdiv now msPerDay
  let tod : Int := Int.emod now msPerDay
  let c := civilFromDays z
  let mm : Int := c.2.1 - 2
  let y1 : Int := c.1 + Int.fdiv mm 12
  let m1 : Int := Int.emod mm 12 + 1
  (daysFromCivil y1 m1 1 + (c.2.2 - 1)) * msPerDay + tod

/-! ## Retention sweep (cleanupOldPins, add node) -/

/-- The filter predicate of cleanupOldPins: keep a pin iff it has a
parseable _stored value and `storedDate >= oneMonthAgo`. A missing
_stored fails the `if (!pin || !pin._stored)` guard; an unparsable one
yields NaN, and `NaN >= cutoff` is false, so both are dropped. -/
def keepPin (cutoff : Int) (p : StoredPin) : Bool :=
  match p.stored with
  | none => false
  | some t => cutoff ≤ t

/-- One token collection after the sweep. -/
def cleanupColl (cutoff : Int) (coll : List StoredPin) : List StoredPin :=
  coll.filter (keepPin cutoff)

/-- cleanupOldPins: iterates over every token of pinsData and filters its
collection against the calendar-month cutoff. (The source also resets a
non-array entry to []; in this typed model every entry is a list, so that
defensive branch cannot fire.) -/
def cleanupOldPins (now : Int) (store : Store) : Store :=
  fun token => cleanupColl (oneMonthAgo now) (store token)

/-! ## Insert-or-replace (storePin, add node) -/

/-- The collection-level insert-or-replace inside storePin: drop any
existing pin with the same id, then push the new pin stamped with the
current insertion time (`_stored: new Date().toISOString()`). -/
def upsert (now : Int) (pin : Pin) (coll : List StoredPin) : List StoredPin :=
  coll.filter (fun p => p.id ≠ pin.id) ++ [⟨pin.id, pin.time, some now⟩]

/-- storePin on the whole store: initialise the token collection if
absent (the empty collection in this model), insert-or-replace the pin,
then run cleanupOldPins across all tokens. The subsequent file write is
modelled separately in addPinOp. -/
def storePin (now : Int) (timelineToken : String) (pin : Pin) (pinsData : Store) : Store :=
  cleanupOldPins now (update pinsData timelineToken (upsert now pin (pinsData timelineToken)))

/-! ## Delete-by-id (removePin, delete node)

The delete node filters out every pin matching the id and writes the
file only when the collection length actually changed; it runs no
retention sweep (the comment in the source defers cleanup to the add
node). The absent-token early return `if (!pinsData[timelineToken])
return` coincides with filtering the empty collection: no change and no
write either way. -/

/-- removePin: first component is the store after the delete, second is
whether the collection length changed (which is also the write
condition). -/
def removePin (timelineToken pinId : String) (pinsData : Store) : Store × Bool :=
  let coll := pinsData timelineToken
  let newColl := coll.filter (fun p => p.id ≠ pinId)
  (update pinsData timelineToken newColl, decide (newColl.length ≠ coll.length))

/-! ## Range listing (list node) -/

/-- The JS relational comparison of two Date values through getTime: any
comparison involving NaN (a missing or unparsable value) is false. A none
operand also covers an absent bound, for which the source skips the check
altogether, which has the same effect. -/
def jsLt (x y : JsTime) : Bool :=
  match x, y with
  | some a, some b => a < b
  | _, _ => false

/-- The filter of the list node: include a pin unless a supplied start
bound strictly exceeds its time or a supplied end bound is strictly below
it. Both comparisons are on getTime values, so for an unparsable pin time
(NaN) each comparison is false and the pin is included. -/
def includePin (startTime endTime : Option Int) (p : StoredPin) : Bool :=
  !jsLt p.time startTime && !jsLt endTime p.time

/-- filteredPins: the list node applies the two bound checks to the
collection of the requested token. -/
def filteredPins (startTime endTime : Option Int) (coll : List StoredPin) : List StoredPin :=
  coll.filter (includePin startTime endTime)

/-- listPins: the payload of the list node for one token. A token with no
collection yields the empty list (`let pins = []` in the source). The
sweep the list node runs afterwards does not affect the already computed
payload. -/
def listPins (startTime endTime : Option Int) (timelineToken : String) (store : Store) :
    List StoredPin :=
  filteredPins startTime endTime (store timelineToken)

/-! ## File load and persistence -/

/-- The three states the backing file can be in when an operation loads
it: absent, present but unparsable (JSON.parse throws), or well formed. -/
inductive FileContent where
  | missing : FileContent
  | corrupt : FileContent
  | wellFormed : Store → FileContent

/-- The load sequence shared by all three nodes: `let pinsData = {}`,
then fill it from the file only when it exists and parses; a parse
failure is caught and only warned about, leaving the empty store. -/
def loadStore : FileContent → Store
  | .missing => emptyStore
  | .corrupt => emptyStore
  | .wellFormed s => s

/-- Observable outcome of a mutating operation: the in-memory store after
the mutation, the content actually written to the backing file (none when
no write happened or the write threw), whether a persist failure was
warned about, and whether the operation errored out. -/
structure OpOutcome where
  memStore : Store
  fileWrite : Option Store
  warned : Bool
  errored : Bool

/-- The add-node operation around storePin: mutate in memory, then
attempt the file write; `fs.writeFileSync` is wrapped in try/catch, so a
failed write (writeOk = false) produces only a warning and never unwinds
the mutation or fails the operation. -/
def addPinOp (now : Int) (timelineToken : String) (pin : Pin) (writeOk : Bool)
    (store : Store) : OpOutcome :=
  let s := storePin now timelineToken pin store
  { memStore := s
    fileWrite := if writeOk then some s else none
    warned := !writeOk
    errored := false }

/-- The delete-node operation around removePin: the write is attempted
only when the collection length changed, and a failed write is caught and
warned about without unwinding the in-memory delete. -/
def removePinOp (timelineToken pinId : String) (writeOk : Bool) (store : Store) : OpOutcome :=
  let r := removePin timelineToken pinId store
  if r.2 then
    { memStore := r.1
      fileWrite := if writeOk then some r.1 else none
      warned := !writeOk
      errored := false }
  else
    { memStore := r.1
      fileWrite := none
      warned := false
      errored := false }

/-! ## Concrete stores used in witness instances -/

/-- A store holding one pin under token A, with no pin of id zzz. -/
def storeC5 : Store := fun t => if t = "A" then [⟨"p1", some 0, some 0⟩] else []

/-- A store holding one pin of id x under token A. -/
def storeC9 : Store := fun t => if t = "A" then [⟨"x", none, some 0⟩] else []

/-- A store whose token A collection holds two pins sharing the id d (as
a corrupt file can) plus one pin of id e. -/
def storeC10 : Store := fun t =>
  if t = "A" then [⟨"d", none, some 0⟩, ⟨"d", some 1, some 2⟩, ⟨"e", none, some 3⟩] else []

/-! ## Helper lemmas -/

theorem update_apply_same (store : Store) (token : String) (coll : List StoredPin) :
    update store token coll token = coll := by
  simp [update]

theorem update_self_eq (store : Store) (token : String) :
    update store token (store token) = store := by
  funext t
  by_cases h : t = token <;> simp [update, h]

theorem filter_twice {α : Type} (f : α → Bool) (l : List α) :
    (l.filter f).filter f = l.filter f := by
  rw [List.filter_filter]
  simp

theorem keepPin_eq_true (cutoff : Int) (p : StoredPin) :
    keepPin cutoff p = true ↔ ∃ t, p.stored = some t ∧ cutoff ≤ t := by
  rcases p with ⟨pid, ptime, pstored⟩
  cases pstored <;> simp [keepPin]

theorem includePin_eq_true (startTime endTime : Option Int) (p : StoredPin) :
    includePin startTime endTime p = true ↔
      p.time = none ∨ ∃ t, p.time = some t ∧
        (∀ s, startTime = some s → s ≤ t) ∧ (∀ e, endTime = some e → t ≤ e) := by
  rcases p with ⟨pid, ptime, pstored⟩
  cases startTime <;> cases endTime <;> cases ptime <;>
    simp [includePin, jsLt, Int.not_lt]

theorem countP_upsert (n : Int) (pin : Pin) (coll : List StoredPin) :
    (upsert n pin coll).countP (fun q => q.id = pin.id) = 1 := by
  unfold upsert
  rw [List.countP_append]
  have h0 : (coll.filter (fun p => p.id ≠ pin.id)).countP (fun q => q.id = pin.id) = 0 := by
    rw [List.countP_eq_zero]
    intro a ha
    rcases List.mem_filter.mp ha with ⟨-, hne⟩
    simp at hne ⊢
    exact hne
  simp [h0, List.countP_cons]

theorem upsert_upsert (n1 n2 : Int) (pin : Pin) (coll : List StoredPin) :
    upsert n2 pin (upsert n1 pin coll) = upsert n2 pin coll := by
  unfold upsert
  rw [List.filter_append, List.filter_filter]
  simp

theorem removePin_fst (timelineToken pinId : String) (store : Store) :
    (removePin timelineToken pinId store).1
      = update store timelineToken ((store timelineToken).filter (fun p => p.id ≠ pinId)) := rfl

theorem removePin_snd (timelineToken pinId : String) (store : Store) :
    (removePin timelineToken pinId store).2
      = decide ((((store timelineToken).filter (fun p => p.id ≠ pinId)).length
          ≠ (store timelineToken).length)) := rfl

/-! ## Claims -/

/-- Claim C1: upsert is an insert-or-replace on a token collection. For
every collection and pin, a single upsert leaves exactly one pin with
that id and appends the pin stamped with the fresh insertion timestamp;
an immediately repeated upsert again leaves exactly one pin with that id
and a collection of the same size as after the first upsert. -/
theorem upsert_insert_or_replace (n1 n2 : Int) (pin : Pin) (coll : List StoredPin) :
    (upsert n1 pin coll).countP (fun q => q.id = pin.id) = 1 ∧
    (upsert n1 pin coll).getLast? = some ⟨pin.id, pin.time, some n1⟩ ∧
    (upsert n2 pin (upsert n1 pin coll)).countP (fun q => q.id = pin.id) = 1 ∧
    (upsert n2 pin (upsert n1 pin coll)).length = (upsert n1 pin coll).length := by
  refine ⟨countP_upsert n1 pin coll, ?_, ?_, ?_⟩
  · unfold upsert
    simp
  · rw [upsert_upsert]
    exact countP_upsert n2 pin coll
  · rw [upsert_upsert]
    unfold upsert
    simp

/-- Claim C2: the retention sweep keeps a pin if and only if it was
present before and its storedAt parses to a timestamp no older than one
calendar month before now (the cutoff obtained by subtracting one from
the month field of now); pins without a parseable storedAt are removed,
the surviving pins form a sublist of the original collection, and the
rule applies to every token in the store, not only the mutated one. -/
theorem cleanupOldPins_removes_expired_everywhere (now : Int) (store : Store) (token : String) :
    (∀ p : StoredPin, p ∈ cleanupOldPins now store token ↔
        p ∈ store token ∧ ∃ t, p.stored = some t ∧ oneMonthAgo now ≤ t) ∧
    (cleanupOldPins now store token).Sublist (store token) := by
  constructor
  · intro p
    simp only [cleanupOldPins, cleanupColl]
    rw [List.mem_filter, keepPin_eq_true]
  · exact List.filter_sublist _

/-- Claim C3, counterexample: a stored pin whose eventTime does not parse
is NOT excluded from range results; with both bounds supplied as 0 the
malformed pin is returned, because in the source both bound checks
compare against NaN and a NaN comparison is always false. -/
theorem filteredPins_malformed_not_excluded :
    (⟨"m", none, some 5⟩ : StoredPin) ∈
      filteredPins (some 0) (some 0) [⟨"m", none, some 5⟩] ∧
    (⟨"m", none, some 5⟩ : StoredPin).time = none := by
  decide

/-- Claim C3 as amended: a stored pin whose eventTime does not parse is
always INCLUDED in range results, regardless of which bounds are
supplied; the filter is a total function, so no malformed stored
timestamp makes a query raise. -/
theorem filteredPins_malformed_included (startTime endTime : Option Int)
    (coll : List StoredPin) (p : StoredPin) (hp : p ∈ coll) (ht : p.time = none) :
    p ∈ filteredPins startTime endTime coll := by
  rw [filteredPins, List.mem_filter]
  exact ⟨hp, (includePin_eq_true startTime endTime p).mpr (Or.inl ht)⟩

/-- Witness for the amended claim C3 at a concrete malformed pin and
concrete supplied bounds. -/
theorem filteredPins_malformed_included_witness :
    (⟨"w", none, some 0⟩ : StoredPin) ∈
      filteredPins (some 3) (some 4) [⟨"w", none, some 0⟩] :=
  filteredPins_malformed_included (some 3) (some 4) _ _ (by decide) rfl

/-- Claim C4, counterexample: the result of a range query is not exactly
the pins whose eventTime lies in the closed interval of the bounds: with
bounds 10 and 20 the query returns a pin whose eventTime does not parse
at all (and so lies in no interval). -/
theorem filteredPins_returns_nonmember :
    filteredPins (some 10) (some 20) [⟨"q", none, some 7⟩] = [⟨"q", none, some 7⟩] ∧
    (⟨"q", none, some 7⟩ : StoredPin).time = none := by
  decide

/-- Claim C4 as amended: a pin is in the range result if and only if it
is in the collection and either its eventTime does not parse (such pins
are always returned) or its eventTime lies in the closed interval of the
supplied bounds, inclusive on each provided bound, with an absent bound
unbounded on that side; in particular a pin whose eventTime equals a
supplied bound is included. -/
theorem filteredPins_range_query (startTime endTime : Option Int) (coll : List StoredPin)
    (p : StoredPin) :
    p ∈ filteredPins startTime endTime coll ↔
      p ∈ coll ∧ (p.time = none ∨ ∃ t, p.time = some t ∧
        (∀ s, startTime = some s → s ≤ t) ∧ (∀ e, endTime = some e → t ≤ e)) := by
  rw [filteredPins, List.mem_filter, includePin_eq_true]

/-- Claim C5: deleting an id that no pin of the token carries is a silent
no-op, leaving the store unchanged and reporting no write; and whatever
the store, a second identical remove directly after a first one changes
nothing and reports no write. -/
theorem removePin_unknown_id_noop (timelineToken pinId : String) (store : Store) :
    ((∀ p ∈ store timelineToken, p.id ≠ pinId) →
        (removePin timelineToken pinId store).1 = store ∧
        (removePin timelineToken pinId store).2 = false) ∧
    (removePin timelineToken pinId (removePin timelineToken pinId store).1).1 =
        (removePin timelineToken pinId store).1 ∧
    (removePin timelineToken pinId (removePin timelineToken pinId store).1).2 = false := by
  have hs1 : (removePin timelineToken pinId store).1 timelineToken
      = (store timelineToken).filter (fun p => p.id ≠ pinId) := by
    rw [removePin_fst]
    exact update_apply_same store timelineToken _
  refine ⟨?_, ?_, ?_⟩
  · intro h
    have hf : (store timelineToken).filter (fun p => p.id ≠ pinId) = store timelineToken :=
      List.filter_eq_self.mpr (fun a ha => by simpa using h a ha)
    refine ⟨?_, ?_⟩
    · rw [removePin_fst, hf]
      exact update_self_eq store timelineToken
    · rw [removePin_snd, hf]
      simp
  · rw [removePin_fst, hs1, filter_twice, ← hs1]
    exact update_self_eq _ _
  · rw [removePin_snd, hs1, filter_twice]
    simp

/-- Witness for claim C5: a concrete store with one pin under token A,
deleting an absent id zzz returns the store unchanged with no write. -/
theorem removePin_unknown_id_noop_witness :
    (∀ p ∈ storeC5 "A", p.id ≠ "zzz") ∧
    ((removePin "A" "zzz" storeC5).1 = storeC5 ∧ (removePin "A" "zzz" storeC5).2 = false) :=
  ⟨by decide, (removePin_unknown_id_noop "A" "zzz" storeC5).1 (by decide)⟩

/-- Claim C6: a missing or unparsable backing file loads as the empty
store, so for every token and bounds the list operation returns the
empty sequence, identical to listing against a genuinely empty store;
the load path is total, never fatal. -/
theorem listPins_corrupt_store_empty (timelineToken : String) (startTime endTime : Option Int) :
    listPins startTime endTime timelineToken (loadStore .corrupt) = [] ∧
    listPins startTime endTime timelineToken (loadStore .missing) = [] ∧
    listPins startTime endTime timelineToken (loadStore .corrupt) =
      listPins startTime endTime timelineToken emptyStore := by
  simp [listPins, loadStore, emptyStore, filteredPins]

/-- Claim C7, counterexample: at now = 2025-03-29T12:00Z (epoch ms
1743249600000) the calendar cutoff normalises to 2025-03-01T12:00Z, only
28 days before now, so the sweep removes the pin stored 29 days ago as
well as the one stored 40 days ago: survivors are only the one-day-old
pin and removedCount is 2, not 1. -/
theorem cleanupColl_month_boundary_counterexample :
    cleanupColl (oneMonthAgo 1743249600000)
        [⟨"p40", none, some (1743249600000 - 40 * msPerDay)⟩,
         ⟨"p29", none, some (1743249600000 - 29 * msPerDay)⟩,
         ⟨"p1", none, some (1743249600000 - 1 * msPerDay)⟩] =
      [⟨"p1", none, some (1743249600000 - 1 * msPerDay)⟩] := by
  decide

/-- Claim C7 as amended: for a current time now whose calendar-month
cutoff lies between 40 and 29 days back (which holds except at
month-boundary dates where one month back spans fewer than 29 days), the
sweep over pins stored 40, 29 and 1 days ago removes exactly the
40-day-old pin and keeps the other two (removedCount = 1). -/
theorem cleanupColl_40_29_1 (now : Int)
    (h40 : now - 40 * msPerDay < oneMonthAgo now)
    (h29 : oneMonthAgo now ≤ now - 29 * msPerDay) :
    cleanupColl (oneMonthAgo now)
        [⟨"p40", none, some (now - 40 * msPerDay)⟩,
         ⟨"p29", none, some (now - 29 * msPerDay)⟩,
         ⟨"p1", none, some (now - 1 * msPerDay)⟩] =
      [⟨"p29", none, some (now - 29 * msPerDay)⟩,
       ⟨"p1", none, some (now - 1 * msPerDay)⟩] := by
  have hms : (0 : Int) < msPerDay := by norm_num [msPerDay]
  have k40 : keepPin (oneMonthAgo now) ⟨"p40", none, some (now - 40 * msPerDay)⟩ = false := by
    simp only [keepPin, decide_eq_false_iff_not, Int.not_le]
    exact h40
  have k29 : keepPin (oneMonthAgo now) ⟨"p29", none, some (now - 29 * msPerDay)⟩ = true := by
    simp only [keepPin, decide_eq_true_eq]
    exact h29
  have k1 : keepPin (oneMonthAgo now) ⟨"p1", none, some (now - msPerDay)⟩ = true := by
    simp only [keepPin, decide_eq_true_eq]
    omega
  simp [cleanupColl, List.filter_cons, k40, k29, k1]

/-- Witness for the amended claim C7 at now = 2025-06-15T00:00Z, whose
calendar cutoff is 31 days back. -/
theorem cleanupColl_40_29_1_witness :
    (1749945600000 - 40 * msPerDay < oneMonthAgo 1749945600000) ∧
    (oneMonthAgo 1749945600000 ≤ 1749945600000 - 29 * msPerDay) ∧
    cleanupColl (oneMonthAgo 1749945600000)
        [⟨"p40", none, some (1749945600000 - 40 * msPerDay)⟩,
         ⟨"p29", none, some (1749945600000 - 29 * msPerDay)⟩,
         ⟨"p1", none, some (1749945600000 - 1 * msPerDay)⟩] =
      [⟨"p29", none, some (1749945600000 - 29 * msPerDay)⟩,
       ⟨"p1", none, some (1749945600000 - 1 * msPerDay)⟩] :=
  ⟨by decide, by decide, cleanupColl_40_29_1 1749945600000 (by decide) (by decide)⟩

/-- Claim C8: adding a pin under one token is frame-confined to that
token: any other token collection is exactly its retention sweep, hence
a sublist of its previous value (every surviving pin was already present
unchanged); in particular listing a token that had no pins still yields
the empty sequence after the add. -/
theorem storePin_cross_token_frame (now : Int) (tokenA tokenB : String) (pin : Pin)
    (store : Store) (hne : tokenB ≠ tokenA) :
    storePin now tokenA pin store tokenB = cleanupColl (oneMonthAgo now) (store tokenB) ∧
    (storePin now tokenA pin store tokenB).Sublist (store tokenB) ∧
    (store tokenB = [] → listPins none none tokenB (storePin now tokenA pin store) = []) := by
  have hupd : update store tokenA (upsert now pin (store tokenA)) tokenB = store tokenB := by
    simp [update, hne]
  have h1 : storePin now tokenA pin store tokenB
      = cleanupColl (oneMonthAgo now) (store tokenB) := by
    simp only [storePin, cleanupOldPins, hupd]
  refine ⟨h1, ?_, ?_⟩
  · rw [h1]
    exact List.filter_sublist _
  · intro hB
    simp [listPins, filteredPins, h1, hB, cleanupColl]

/-- Witness for claim C8: adding a pin under token A to the empty store
and then listing token B yields the empty sequence. -/
theorem storePin_cross_token_frame_witness :
    listPins none none "B" (storePin 0 "A" ⟨"x", some 5⟩ emptyStore) = [] :=
  (storePin_cross_token_frame 0 "A" "B" ⟨"x", some 5⟩ emptyStore (by decide)).2.2 rfl

/-- Claim C9: a failed write of the backing file does not roll back the
operation. For the add path the in-memory store equals the fully applied
storePin result (identical to the successful-write case), still holding
the freshly stamped pin, with the failure surfaced as a warning and not
as an operation error; for a delete that changed the collection, the
in-memory store likewise keeps the applied removal, with a warning and
no error. -/
theorem persist_failure_keeps_mutation (now : Int) (timelineToken pinId : String) (pin : Pin)
    (store : Store) (hmonth : oneMonthAgo now ≤ now)
    (hchanged : (removePin timelineToken pinId store).2 = true) :
    (addPinOp now timelineToken pin false store).memStore = storePin now timelineToken pin store ∧
    (addPinOp now timelineToken pin false store).memStore =
      (addPinOp now timelineToken pin true store).memStore ∧
    (⟨pin.id, pin.time, some now⟩ : StoredPin) ∈
      (addPinOp now timelineToken pin false store).memStore timelineToken ∧
    (addPinOp now timelineToken pin false store).warned = true ∧
    (addPinOp now timelineToken pin false store).errored = false ∧
    (addPinOp now timelineToken pin false store).fileWrite = none ∧
    (removePinOp timelineToken pinId false store).memStore =
      (removePin timelineToken pinId store).1 ∧
    (removePinOp timelineToken pinId false store).memStore =
      (removePinOp timelineToken pinId true store).memStore ∧
    (removePinOp timelineToken pinId false store).warned = true ∧
    (removePinOp timelineToken pinId false store).errored = false ∧
    (removePinOp timelineToken pinId false store).fileWrite = none := by
  have hmem : (⟨pin.id, pin.time, some now⟩ : StoredPin) ∈
      storePin now timelineToken pin store timelineToken := by
    simp only [storePin, cleanupOldPins, update_apply_same, cleanupColl]
    rw [List.mem_filter]
    constructor
    · simp [upsert]
    · simp only [keepPin, decide_eq_true_eq]
      exact hmonth
  refine ⟨rfl, rfl, hmem, rfl, rfl, rfl, ?_, ?_, ?_, ?_, ?_⟩ <;>
    simp [removePinOp, hchanged]

/-- Witness for claim C9 at concrete inputs: the add keeps the stamped
pin in memory despite the failed write, and the delete of an existing
pin reports the mutation with a warning. -/
theorem persist_failure_keeps_mutation_witness :
    (oneMonthAgo 1749945600000 ≤ 1749945600000) ∧
    ((removePin "A" "x" storeC9).2 = true) ∧
    (⟨"p", some 1, some 1749945600000⟩ : StoredPin) ∈
      (addPinOp 1749945600000 "A" ⟨"p", some 1⟩ false storeC9).memStore "A" ∧
    (addPinOp 1749945600000 "A" ⟨"p", some 1⟩ false storeC9).warned = true :=
  ⟨by decide, by decide,
   (persist_failure_keeps_mutation 1749945600000 "A" "x" ⟨"p", some 1⟩ storeC9
      (by decide) (by decide)).2.2.1,
   (persist_failure_keeps_mutation 1749945600000 "A" "x" ⟨"p", some 1⟩ storeC9
      (by decide) (by decide)).2.2.2.1⟩

/-- Claim C10: removePin deletes every pin whose id matches, not just the
first: no pin of the token collection after the removal carries the
removed id, even if a corrupt file produced several pins sharing it. -/
theorem removePin_removes_every_matching (timelineToken pinId : String) (store : Store)
    (p : StoredPin) (hp : p ∈ (removePin timelineToken pinId store).1 timelineToken) :
    p.id ≠ pinId := by
  rw [removePin_fst] at hp
  rw [update_apply_same] at hp
  rcases List.mem_filter.mp hp with ⟨-, h⟩
  simpa using h

/-- Witness for claim C10: after removing id d from a collection holding
two pins of id d and one of id e, the surviving pin has a different id. -/
theorem removePin_removes_every_matching_witness :
    ((⟨"e", none, some 3⟩ : StoredPin) ∈ (removePin "A" "d" storeC10).1 "A") ∧
    (⟨"e", none, some 3⟩ : StoredPin).id ≠ "d" :=
  ⟨by decide, removePin_removes_every_matching "A" "d" storeC10 _ (by decide)⟩

end PebbleTimeline
